import Mathlib

/-!
# KubeWise controller: the watch → queue → dispatch pipeline

A shallow embedding of `controller/controller.go`:

* the three informer callbacks registered by `newResourceController`,
* `Controller.processItem` (cache read-back, filtering, classification,
  suppression and dispatch),
* `Controller.processNextItem` and `Controller.runWorker` (the retry loop).

Every call the controller makes on one of its collaborators (the indexer,
the classifier of package `kwrelease`, the handler, the work queue, the
error sink) is recorded in a trace, so that statements such as
"`HandleEvent` is called exactly once" are statements about that trace.
-/

namespace Kubewise

/-! ## Time -/

/-- Go `time.Duration`: a signed 64 bit count of nanoseconds. -/
abbrev Duration := Int

/-- Go `time.Second`. -/
def Second : Duration := 1000000000

/-- Smallest `time.Duration`, `-1 << 63`. -/
def minDuration : Duration := -(2 ^ 63)

/-- Largest `time.Duration`, `1<<63 - 1`. -/
def maxDuration : Duration := 2 ^ 63 - 1

/-- A wall-clock instant (`time.Time`, `meta_v1.Time`), as a count of
nanoseconds.  Neither the location nor the monotonic reading plays a role
in `Sub` here: a creation timestamp decoded from the API carries no
monotonic reading, so `Sub` compares wall clocks. -/
structure Time where
  nanos : Int
deriving DecidableEq, Repr

/-- Go `Time.Sub`: the duration `t - u`, saturated to
`minDuration` / `maxDuration` when it does not fit. -/
def Time.Sub (t u : Time) : Duration :=
  let d := t.nanos - u.nanos
  if d < minDuration then minDuration
  else if maxDuration < d then maxDuration
  else d

/-- Go `Duration.Seconds`: `float64(d / Second) + float64(d % Second) / 1e9`,
with the truncating `/` and `%` of Go.  The value is kept as an exact rational;
the source only tests its sign, which rounding to `float64` preserves
(quotient and remainder never have opposite signs). -/
def Duration.Seconds (d : Duration) : ℚ :=
  ((Int.tdiv d Second : Int) : ℚ) + ((Int.tmod d Second : Int) : ℚ) / 1000000000

/-! ## Data model -/

/-- Go `error` values are represented by their message. -/
abbrev Err := String

/-- The fields of `api_v1.Secret` that the controller reads. -/
structure Secret where
  Namespace : String
  Name : String
  Type_ : String
  CreationTimestamp : Time
deriving DecidableEq, Repr

/-- A value of Go type `interface{}` as handed to the informer callbacks or
stored in the indexer: a `*api_v1.Secret`, a
`cache.DeletedFinalStateUnknown` tombstone (delivered to a delete callback
when the watch missed the deletion), or a value of some other type. -/
inductive Object where
  | secret (s : Secret)
  | deletedFinalStateUnknown (key : String)
  | other
deriving DecidableEq, Repr

/-- The checked type assertion `object.(*api_v1.Secret)` (the `ok` form). -/
def Object.asSecret : Object → Option Secret
  | .secret s => some s
  | _ => none

/-- The marker secret type of Helm release records. -/
def helmReleaseType : String := "helm.sh/release.v1"

/-- The struct `Event` of package controller: what is placed on the queue. -/
structure Event where
  key : String
  eventType : String
  secretType : String
deriving DecidableEq, Repr

/-- The constant `maxRetries = 5`. -/
def maxRetries : Nat := 5

namespace kwrelease

/-- Modelled from the spec: package `kwrelease` is not among the sources.
The lifecycle actions of §3 (`Install`, `Upgrade`, `Uninstall`,
`SupersededReplace`, `Unknown`). -/
inductive Action where
  | Install
  | Upgrade
  | Uninstall
  | PostReplaceSuperseded
  | Unknown
deriving DecidableEq, Repr

/-- The two fields of `kwrelease.Event` that `processItem` sets. -/
structure Event where
  SecretAction : String
  CurrentReleaseSecret : Secret
deriving DecidableEq, Repr

end kwrelease

/-- The constant `kwrelease.ActionPostReplaceSuperseded`. -/
def ActionPostReplaceSuperseded : kwrelease.Action := .PostReplaceSuperseded

/-- Modelled from the spec: the classifier (`kwrelease.Event.Init` and
`kwrelease.Event.GetAction`) is not among the sources and is taken as a
parameter.  Following §3, the action is computed from the raw type and the
snapshot, that is from the two fields `processItem` stores in the release
event; `Init` returns `none` for a nil error. -/
structure Classifier where
  Init : kwrelease.Event → Option Err
  GetAction : kwrelease.Event → kwrelease.Action

/-- What a Go function call can end in: it returns a value, or the process
is terminated inside it (`log.Fatalf`, which exits), or it waits forever
(a `Get` on an empty queue that is never shut down). -/
inductive Outcome (α : Type) where
  | returned (a : α)
  | exited
  | blocked
deriving DecidableEq, Repr

/-- Calls made by `processItem` on its collaborators. -/
inductive ItemCall where
  | GetByKey (key : String)
  | Fatalf (key : String) (err : Err)
  | Init (re : kwrelease.Event)
  | HandleEvent (re : kwrelease.Event)
deriving DecidableEq, Repr

/-- The part of the controller and of the package state that `processItem`
reads: the indexer of the informer (`GetByKey` returns the item, the
`exists` flag and an error), the classifier, and the package variable
`serverStartTime`. -/
structure Controller where
  GetByKey : String → Option Object × Bool × Option Err
  classifier : Classifier
  serverStartTime : Time

/-! ## processItem -/

/-- Go `func (c *Controller) processItem(newEvent Event) error`.
The result is the returned error (`none` for nil) together with the calls
made, in order. -/
def processItem (c : Controller) (newEvent : Event) :
    Outcome (Option Err) × List ItemCall :=
  match c.GetByKey newEvent.key with
  | (object, _, err) =>
    match err with
    | some e =>
      -- log.Fatalf terminates the process; `return err` is never reached
      (.exited, [.GetByKey newEvent.key, .Fatalf newEvent.key e])
    | none =>
      match object with
      | none => (.returned none, [.GetByKey newEvent.key])
      | some obj =>
        match obj.asSecret with
        | none => (.returned none, [.GetByKey newEvent.key])
        | some secret =>
          if secret.Type_ ≠ helmReleaseType then
            (.returned none, [.GetByKey newEvent.key])
          else
            let releaseEvent : kwrelease.Event :=
              { SecretAction := newEvent.eventType, CurrentReleaseSecret := secret }
            match c.classifier.Init releaseEvent with
            | some _ => (.returned none, [.GetByKey newEvent.key, .Init releaseEvent])
            | none =>
              if c.classifier.GetAction releaseEvent = ActionPostReplaceSuperseded then
                (.returned none, [.GetByKey newEvent.key, .Init releaseEvent])
              else if releaseEvent.SecretAction = "create" then
                if Duration.Seconds (secret.CreationTimestamp.Sub c.serverStartTime) > 0 then
                  (.returned none,
                    [.GetByKey newEvent.key, .Init releaseEvent, .HandleEvent releaseEvent])
                else
                  (.returned none, [.GetByKey newEvent.key, .Init releaseEvent])
              else if releaseEvent.SecretAction = "update" then
                (.returned none,
                  [.GetByKey newEvent.key, .Init releaseEvent, .HandleEvent releaseEvent])
              else if releaseEvent.SecretAction = "delete" then
                (.returned none,
                  [.GetByKey newEvent.key, .Init releaseEvent, .HandleEvent releaseEvent])
              else
                (.returned none, [.GetByKey newEvent.key, .Init releaseEvent])

/-- The `HandleEvent` calls of a trace of `processItem`, in order. -/
def handleEventCalls : List ItemCall → List kwrelease.Event
  | [] => []
  | .HandleEvent re :: cs => re :: handleEventCalls cs
  | _ :: cs => handleEventCalls cs

/-- The classifier invocations (`Init`) of a trace of `processItem`. -/
def initCalls : List ItemCall → List kwrelease.Event
  | [] => []
  | .Init re :: cs => re :: initCalls cs
  | _ :: cs => initCalls cs

/-! ## The work queue -/

/-- Modelled from the spec: the rate limiting work queue of client-go is
not among the sources; this is its contract as given in §4.3.  `queue`
holds the pending items in order, `processing` the items in flight and
`failures` the per item retry counter.  The delay of `AddRateLimited` is
not represented: a delayed item is pending again by the time the worker
asks for it. -/
structure Queue where
  queue : List Event
  processing : List Event
  failures : Event → Nat
  shuttingDown : Bool

/-- What `Get` hands back: an item (shutdown flag false), the shutdown
indication (nil item, flag true), or nothing at all while it waits. -/
inductive GetResult where
  | item (e : Event)
  | shutdown
  | waits
deriving DecidableEq, Repr

/-- Queue contract of §4.3, `Add(e)`: inserts `e` unless an identical item is already pending. -/
def Queue.Add (q : Queue) (e : Event) : Queue :=
  if e ∈ q.queue then q else { q with queue := q.queue ++ [e] }

/-- Queue contract of §4.3, `Get()`: the first pending item, which becomes in flight; with nothing
pending, the shutdown indication if the queue is shut down, else it waits. -/
def Queue.Get (q : Queue) : GetResult × Queue :=
  match q.queue with
  | e :: rest => (.item e, { q with queue := rest, processing := e :: q.processing })
  | [] => if q.shuttingDown then (.shutdown, q) else (.waits, q)

/-- Queue contract of §4.3, `Done(e)`: the item is no longer in flight. -/
def Queue.Done (q : Queue) (e : Event) : Queue :=
  { q with processing := q.processing.erase e }

/-- Queue contract of §4.3, `Forget(e)`: clears the retry counter of `e`. -/
def Queue.Forget (q : Queue) (e : Event) : Queue :=
  { q with failures := Function.update q.failures e 0 }

/-- Queue contract of §4.3, `NumRequeues(e)`: the current retry counter of `e`. -/
def Queue.NumRequeues (q : Queue) (e : Event) : Nat :=
  q.failures e

/-- Queue contract of §4.3, `AddRateLimited(e)`: counts one more retry for `e` and re-enqueues it. -/
def Queue.AddRateLimited (q : Queue) (e : Event) : Queue :=
  Queue.Add { q with failures := Function.update q.failures e (q.failures e + 1) } e

/-- Calls made by one iteration of the worker loop: those of the
processing routine, the queue operations, and `utilruntime.HandleError`
(the error sink). -/
inductive Call where
  | item (c : ItemCall)
  | Get
  | Done (e : Event)
  | Forget (e : Event)
  | NumRequeues (e : Event)
  | AddRateLimited (e : Event)
  | HandleError (err : Err)
deriving DecidableEq, Repr

/-! ## processNextItem and runWorker -/

/-- The body of `func (c *Controller) processNextItem() bool`, with the
processing routine it calls as a parameter.  The result is the returned
boolean, the queue afterwards and the calls made, in order; the deferred
`Done` comes last and is skipped when the process is terminated inside the
processing routine. -/
def processNextItemWith (process : Event → Outcome (Option Err) × List ItemCall)
    (q : Queue) : Outcome Bool × Queue × List Call :=
  match q.Get with
  | (.waits, q1) => (.blocked, q1, [.Get])
  | (.shutdown, q1) => (.returned false, q1, [.Get])
  | (.item newEvent, q1) =>
    match process newEvent with
    | (.exited, cs) => (.exited, q1, .Get :: cs.map .item)
    | (.blocked, cs) => (.blocked, q1, .Get :: cs.map .item)
    | (.returned err, cs) =>
      match err with
      | none =>
        (.returned true, (q1.Forget newEvent).Done newEvent,
          .Get :: cs.map .item ++ [.Forget newEvent, .Done newEvent])
      | some e =>
        if q1.NumRequeues newEvent < maxRetries then
          (.returned true, (q1.AddRateLimited newEvent).Done newEvent,
            .Get :: cs.map .item ++
              [.NumRequeues newEvent, .AddRateLimited newEvent, .Done newEvent])
        else
          (.returned true, (q1.Forget newEvent).Done newEvent,
            .Get :: cs.map .item ++
              [.NumRequeues newEvent, .Forget newEvent, .HandleError e, .Done newEvent])

/-- Go `func (c *Controller) processNextItem() bool`. -/
def processNextItem (c : Controller) (q : Queue) : Outcome Bool × Queue × List Call :=
  processNextItemWith (processItem c) q

/-- Go `func (c *Controller) runWorker()`, the loop on `c.processNextItem()`, run for
at most `fuel` iterations.  The first component is `none` when the fuel
ran out with the loop still going. -/
def runWorkerWith (process : Event → Outcome (Option Err) × List ItemCall) :
    Nat → Queue → Option (Outcome Unit) × Queue × List Call
  | 0, q => (none, q, [])
  | fuel + 1, q =>
    match processNextItemWith process q with
    | (.returned true, q1, cs) =>
      match runWorkerWith process fuel q1 with
      | (r, q2, cs2) => (r, q2, cs ++ cs2)
    | (.returned false, q1, cs) => (some (.returned ()), q1, cs)
    | (.exited, q1, cs) => (some .exited, q1, cs)
    | (.blocked, q1, cs) => (some .blocked, q1, cs)

/-- The loop `runWorker` with the processing routine of the controller. -/
def runWorker (c : Controller) (fuel : Nat) (q : Queue) :
    Option (Outcome Unit) × Queue × List Call :=
  runWorkerWith (processItem c) fuel q

/-- The items passed to `AddRateLimited` in a trace of the worker loop. -/
def addRateLimitedCalls : List Call → List Event
  | [] => []
  | .AddRateLimited e :: cs => e :: addRateLimitedCalls cs
  | _ :: cs => addRateLimitedCalls cs

/-- The items passed to `Forget` in a trace of the worker loop. -/
def forgetCalls : List Call → List Event
  | [] => []
  | .Forget e :: cs => e :: forgetCalls cs
  | _ :: cs => forgetCalls cs

/-- The errors reported to `utilruntime.HandleError` in a trace of the
worker loop. -/
def errorReports : List Call → List Err
  | [] => []
  | .HandleError err :: cs => err :: errorReports cs
  | _ :: cs => errorReports cs

/-! ## The informer callbacks -/

/-- The function `cache.MetaNamespaceKeyFunc` of client-go on the objects above:
`namespace/name` (or `name` alone when the namespace is empty) for an
object with metadata, an error for anything else.  Returns the key and the
error (`none` for nil). -/
def MetaNamespaceKeyFunc : Object → String × Option Err
  | .secret s =>
    if s.Namespace.length > 0 then (s.Namespace ++ "/" ++ s.Name, none)
    else (s.Name, none)
  | _ => ("", some "object has no meta")

/-- The function `cache.DeletionHandlingMetaNamespaceKeyFunc` of client-go: the key
recorded in a `DeletedFinalStateUnknown` tombstone, otherwise
`MetaNamespaceKeyFunc`. -/
def DeletionHandlingMetaNamespaceKeyFunc : Object → String × Option Err
  | .deletedFinalStateUnknown key => (key, none)
  | obj => MetaNamespaceKeyFunc obj

/-- The variables shared by the three closures of `newResourceController`
(`queue`, `newEvent`, `err`), with the list of items passed to
`queue.Add` so far. -/
structure Registration where
  queue : Queue
  newEvent : Event
  err : Option Err
  added : List Event

/-- What running a callback ends in: it completes, or the unchecked type
assertion `secret.(*api_v1.Secret)` panics. -/
inductive Completion where
  | completed (r : Registration)
  | panicked

/-- The closure `AddFunc` of `newResourceController`. -/
def AddFunc (secret : Object) (r : Registration) : Completion :=
  match MetaNamespaceKeyFunc secret with
  | (key, err) =>
    let newEvent : Event := { r.newEvent with key := key, eventType := "create" }
    match secret.asSecret with
    | none => .panicked
    | some s =>
      let newEvent : Event := { newEvent with secretType := s.Type_ }
      if err = none then
        .completed { queue := r.queue.Add newEvent, newEvent := newEvent, err := err,
                     added := r.added ++ [newEvent] }
      else
        .completed { r with newEvent := newEvent, err := err }

/-- The closure `UpdateFunc` of `newResourceController`; key and type are read from the
first argument. -/
def UpdateFunc (secret new : Object) (r : Registration) : Completion :=
  match MetaNamespaceKeyFunc secret, new with
  | (key, err), _ =>
    let newEvent : Event := { r.newEvent with key := key, eventType := "update" }
    match secret.asSecret with
    | none => .panicked
    | some s =>
      let newEvent : Event := { newEvent with secretType := s.Type_ }
      if err = none then
        .completed { queue := r.queue.Add newEvent, newEvent := newEvent, err := err,
                     added := r.added ++ [newEvent] }
      else
        .completed { r with newEvent := newEvent, err := err }

/-- The closure `DeleteFunc` of `newResourceController`. -/
def DeleteFunc (secret : Object) (r : Registration) : Completion :=
  match DeletionHandlingMetaNamespaceKeyFunc secret with
  | (key, err) =>
    let newEvent : Event := { r.newEvent with key := key, eventType := "delete" }
    match secret.asSecret with
    | none => .panicked
    | some s =>
      let newEvent : Event := { newEvent with secretType := s.Type_ }
      if err = none then
        .completed { queue := r.queue.Add newEvent, newEvent := newEvent, err := err,
                     added := r.added ++ [newEvent] }
      else
        .completed { r with newEvent := newEvent, err := err }


/-! ## Sample data -/

/-- A Helm release secret created at the given instant. -/
def sampleSecret (created : Int) : Secret :=
  { Namespace := "default", Name := "sh.helm.release.v1.rel-1.v1",
    Type_ := helmReleaseType, CreationTimestamp := ⟨created⟩ }

/-- A secret that is not a Helm release record. -/
def opaqueSecret : Secret :=
  { Namespace := "default", Name := "db-password", Type_ := "Opaque",
    CreationTimestamp := ⟨110⟩ }

/-- A classifier that initialises every release event and reports `a`. -/
def constClassifier (a : kwrelease.Action) : Classifier :=
  { Init := fun _ => none, GetAction := fun _ => a }

/-- A classifier whose `Init` fails on every release event. -/
def failingClassifier : Classifier :=
  { Init := fun _ => some "release could not be decoded", GetAction := fun _ => .Unknown }

/-- A controller started at instant 100 whose indexer answers every lookup
with `lookup`. -/
def sampleController (lookup : Option Object × Bool × Option Err) (cl : Classifier) :
    Controller :=
  { GetByKey := fun _ => lookup, classifier := cl, serverStartTime := ⟨100⟩ }

/-- A queued event for the sample release secret. -/
def sampleEvent (eventType : String) : Event :=
  { key := "default/sh.helm.release.v1.rel-1.v1", eventType := eventType,
    secretType := helmReleaseType }

/-- A queue holding exactly the given pending items, nothing in flight and
all retry counters at zero. -/
def sampleQueue (pending : List Event) : Queue :=
  { queue := pending, processing := [], failures := fun _ => 0, shuttingDown := false }

/-- A processing routine that fails on every attempt with the given error. -/
def failingProcess (err : Err) : Event → Outcome (Option Err) × List ItemCall :=
  fun e => (.returned (some err), [.GetByKey e.key])

/-- The sample queue after its only pending item has been handed out. -/
def sampleInFlight (e : Event) : Queue :=
  { queue := [], processing := [e], failures := fun _ => 0, shuttingDown := false }

/-- An empty queue that has been shut down. -/
def shutDownQueue : Queue :=
  { queue := [], processing := [], failures := fun _ => 0, shuttingDown := true }

/-- The closure variables right after `newResourceController` declared
them: an empty queue, the zero `Event` and a nil error. -/
def sampleRegistration : Registration :=
  { queue := sampleQueue [], newEvent := { key := "", eventType := "", secretType := "" },
    err := none, added := [] }

/-! ## Time lemmas -/

theorem tdiv_tmod_nonpos (d : Int) (hd : d ≤ 0) :
    Int.tdiv d 1000000000 ≤ 0 ∧ Int.tmod d 1000000000 ≤ 0 := by
  have h1 := Int.tdiv_nonneg (a := -d) (b := 1000000000) (by omega) (by norm_num)
  have h2 := Int.tmod_nonneg (a := -d) 1000000000 (by omega)
  have h3 := Int.tmod_add_tdiv d 1000000000
  have h4 := Int.tmod_add_tdiv (-d) 1000000000
  rw [Int.neg_tdiv] at h1 h4
  constructor <;> omega

theorem tdiv_tmod_pos (d : Int) (hd : 0 < d) :
    0 ≤ Int.tdiv d 1000000000 ∧ 0 ≤ Int.tmod d 1000000000 ∧
      (0 < Int.tdiv d 1000000000 ∨ 0 < Int.tmod d 1000000000) := by
  have h1 : 0 ≤ Int.tdiv d 1000000000 := Int.tdiv_nonneg (by omega) (by norm_num)
  have h2 : 0 ≤ Int.tmod d 1000000000 := Int.tmod_nonneg _ (by omega)
  have h3 := Int.tmod_add_tdiv d 1000000000
  refine ⟨h1, h2, ?_⟩
  omega

theorem Duration.Seconds_pos_iff (d : Int) : Duration.Seconds d > 0 ↔ 0 < d := by
  unfold Duration.Seconds Second
  constructor
  · intro h
    by_contra hd
    obtain ⟨h1, h2⟩ := tdiv_tmod_nonpos d (not_lt.mp hd)
    have h1q : ((Int.tdiv d 1000000000 : Int) : ℚ) ≤ 0 := by exact_mod_cast h1
    have h2q : ((Int.tmod d 1000000000 : Int) : ℚ) ≤ 0 := by exact_mod_cast h2
    have : ((Int.tmod d 1000000000 : Int) : ℚ) / 1000000000 ≤ 0 :=
      div_nonpos_of_nonpos_of_nonneg h2q (by norm_num)
    linarith
  · intro hd
    obtain ⟨h1, h2, h3⟩ := tdiv_tmod_pos d hd
    have h1q : (0 : ℚ) ≤ ((Int.tdiv d 1000000000 : Int) : ℚ) := by exact_mod_cast h1
    have h2q : (0 : ℚ) ≤ ((Int.tmod d 1000000000 : Int) : ℚ) := by exact_mod_cast h2
    have h2d : (0 : ℚ) ≤ ((Int.tmod d 1000000000 : Int) : ℚ) / 1000000000 :=
      div_nonneg h2q (by norm_num)
    rcases h3 with hp | hm
    · have hpq : (0 : ℚ) < ((Int.tdiv d 1000000000 : Int) : ℚ) := by exact_mod_cast hp
      linarith
    · have hmq : (0 : ℚ) < ((Int.tmod d 1000000000 : Int) : ℚ) := by exact_mod_cast hm
      have : (0 : ℚ) < ((Int.tmod d 1000000000 : Int) : ℚ) / 1000000000 :=
        div_pos hmq (by norm_num)
      linarith

theorem Time.Sub_pos_iff (t u : Time) : (0 : Int) < t.Sub u ↔ u.nanos < t.nanos := by
  unfold Time.Sub minDuration maxDuration
  simp only
  split_ifs with h1 h2
  · norm_num at h1 ⊢
    omega
  · norm_num at h2 ⊢
    have h2i : (9223372036854775807 : Int) < t.nanos - u.nanos := h2
    omega
  · constructor <;> intro h <;> omega

/-- The test of line 272, `CreationTimestamp.Sub(serverStartTime).Seconds() > 0`,
holds exactly when the creation instant is strictly after the start instant. -/
theorem created_after_start_iff (t u : Time) :
    Duration.Seconds (t.Sub u) > 0 ↔ u.nanos < t.nanos := by
  rw [Duration.Seconds_pos_iff, Time.Sub_pos_iff]


/-! ## processItem: the paths through the routine -/

theorem processItem_lookup_failed (c : Controller) (newEvent : Event)
    (object : Option Object) (found : Bool) (e : Err)
    (hget : c.GetByKey newEvent.key = (object, found, some e)) :
    processItem c newEvent =
      (.exited, [.GetByKey newEvent.key, .Fatalf newEvent.key e]) := by
  simp [processItem, hget]

theorem processItem_absent (c : Controller) (newEvent : Event) (found : Bool)
    (hget : c.GetByKey newEvent.key = (none, found, none)) :
    processItem c newEvent = (.returned none, [.GetByKey newEvent.key]) := by
  simp [processItem, hget]

theorem processItem_not_secret (c : Controller) (newEvent : Event) (obj : Object)
    (found : Bool) (hget : c.GetByKey newEvent.key = (some obj, found, none))
    (hcast : obj.asSecret = none) :
    processItem c newEvent = (.returned none, [.GetByKey newEvent.key]) := by
  simp [processItem, hget, hcast]

theorem processItem_not_helm (c : Controller) (newEvent : Event) (secret : Secret)
    (found : Bool) (hget : c.GetByKey newEvent.key = (some (.secret secret), found, none))
    (htype : secret.Type_ ≠ helmReleaseType) :
    processItem c newEvent = (.returned none, [.GetByKey newEvent.key]) := by
  simp [processItem, hget, Object.asSecret, htype]

theorem processItem_init_failed (c : Controller) (newEvent : Event) (secret : Secret)
    (found : Bool) (e : Err)
    (hget : c.GetByKey newEvent.key = (some (.secret secret), found, none))
    (htype : secret.Type_ = helmReleaseType)
    (hinit : c.classifier.Init ⟨newEvent.eventType, secret⟩ = some e) :
    processItem c newEvent =
      (.returned none, [.GetByKey newEvent.key, .Init ⟨newEvent.eventType, secret⟩]) := by
  simp [processItem, hget, Object.asSecret, htype, hinit]

theorem processItem_superseded (c : Controller) (newEvent : Event) (secret : Secret)
    (found : Bool)
    (hget : c.GetByKey newEvent.key = (some (.secret secret), found, none))
    (htype : secret.Type_ = helmReleaseType)
    (hinit : c.classifier.Init ⟨newEvent.eventType, secret⟩ = none)
    (hact : c.classifier.GetAction ⟨newEvent.eventType, secret⟩ = ActionPostReplaceSuperseded) :
    processItem c newEvent =
      (.returned none, [.GetByKey newEvent.key, .Init ⟨newEvent.eventType, secret⟩]) := by
  simp [processItem, hget, Object.asSecret, htype, hinit, hact]

theorem processItem_classified (c : Controller) (newEvent : Event) (secret : Secret)
    (found : Bool)
    (hget : c.GetByKey newEvent.key = (some (.secret secret), found, none))
    (htype : secret.Type_ = helmReleaseType)
    (hinit : c.classifier.Init ⟨newEvent.eventType, secret⟩ = none)
    (hact : c.classifier.GetAction ⟨newEvent.eventType, secret⟩ ≠ ActionPostReplaceSuperseded) :
    processItem c newEvent =
      (.returned none,
        if (newEvent.eventType = "create" ∧
              c.serverStartTime.nanos < secret.CreationTimestamp.nanos) ∨
            newEvent.eventType = "update" ∨ newEvent.eventType = "delete" then
          [.GetByKey newEvent.key, .Init ⟨newEvent.eventType, secret⟩,
            .HandleEvent ⟨newEvent.eventType, secret⟩]
        else [.GetByKey newEvent.key, .Init ⟨newEvent.eventType, secret⟩]) := by
  simp only [processItem, hget, Object.asSecret, htype, hinit, hact, ne_eq, not_true_eq_false,
    if_false, created_after_start_iff]
  by_cases h1 : newEvent.eventType = "create"
  · by_cases h2 : c.serverStartTime.nanos < secret.CreationTimestamp.nanos
    · simp [h1, h2]
    · simp [h1, h2]
  · by_cases h3 : newEvent.eventType = "update"
    · simp [h3]
    · by_cases h4 : newEvent.eventType = "delete"
      · simp [h4]
      · simp [h1, h3, h4]


/-! ## Suppression filter -/

/-- C1 (startup suppression): for a "create" event whose cached object is a
Helm release secret, whose release event initialises and whose action is
not the superseded-replace action, `processItem` returns nil and calls
`HandleEvent` exactly once, with that release event, when the creation
instant is strictly after the server start instant, and not at all when it
is at or before it. -/
theorem startup_suppression (c : Controller) (newEvent : Event) (secret : Secret)
    (found : Bool)
    (hget : c.GetByKey newEvent.key = (some (.secret secret), found, none))
    (htype : secret.Type_ = helmReleaseType)
    (hcreate : newEvent.eventType = "create")
    (hinit : c.classifier.Init ⟨newEvent.eventType, secret⟩ = none)
    (hact : c.classifier.GetAction ⟨newEvent.eventType, secret⟩ ≠
      ActionPostReplaceSuperseded) :
    (processItem c newEvent).1 = .returned none ∧
    handleEventCalls (processItem c newEvent).2 =
      if c.serverStartTime.nanos < secret.CreationTimestamp.nanos then
        [⟨"create", secret⟩]
      else [] := by
  rw [processItem_classified c newEvent secret found hget htype hinit hact]
  refine ⟨rfl, ?_⟩
  by_cases h : c.serverStartTime.nanos < secret.CreationTimestamp.nanos
  · simp [hcreate, h, handleEventCalls]
  · simp [hcreate, h, handleEventCalls]

/-- Scenarios 1 and 3 of the specification: a release created 10 after the
start instant is dispatched once, one created 5 before it is not. -/
theorem startup_suppression_witness :
    ((processItem (sampleController (some (.secret (sampleSecret 110)), true, none)
        (constClassifier .Install)) (sampleEvent "create")).1 = .returned none ∧
      handleEventCalls (processItem (sampleController
        (some (.secret (sampleSecret 110)), true, none)
        (constClassifier .Install)) (sampleEvent "create")).2 =
        if (100 : Int) < 110 then [⟨"create", sampleSecret 110⟩] else []) ∧
    ((processItem (sampleController (some (.secret (sampleSecret 95)), true, none)
        (constClassifier .Install)) (sampleEvent "create")).1 = .returned none ∧
      handleEventCalls (processItem (sampleController
        (some (.secret (sampleSecret 95)), true, none)
        (constClassifier .Install)) (sampleEvent "create")).2 =
        if (100 : Int) < 95 then [⟨"create", sampleSecret 95⟩] else []) :=
  ⟨startup_suppression
      (sampleController (some (.secret (sampleSecret 110)), true, none)
        (constClassifier .Install))
      (sampleEvent "create") (sampleSecret 110) true rfl rfl rfl rfl (by decide),
   startup_suppression
      (sampleController (some (.secret (sampleSecret 95)), true, none)
        (constClassifier .Install))
      (sampleEvent "create") (sampleSecret 95) true rfl rfl rfl rfl (by decide)⟩


/-- Every release event that `processItem` hands to `HandleEvent` was
initialised without error and is not classified superseded-replace. -/
theorem dispatched_not_superseded (c : Controller) (newEvent : Event)
    (re : kwrelease.Event) (hre : re ∈ handleEventCalls (processItem c newEvent).2) :
    c.classifier.Init re = none ∧
      c.classifier.GetAction re ≠ ActionPostReplaceSuperseded := by
  rcases hg : c.GetByKey newEvent.key with ⟨object, found, err⟩
  cases err with
  | some e =>
    rw [processItem_lookup_failed c newEvent object found e hg] at hre
    simp [handleEventCalls] at hre
  | none =>
    cases object with
    | none =>
      rw [processItem_absent c newEvent found hg] at hre
      simp [handleEventCalls] at hre
    | some obj =>
      cases obj with
      | deletedFinalStateUnknown key =>
        rw [processItem_not_secret c newEvent _ found hg rfl] at hre
        simp [handleEventCalls] at hre
      | other =>
        rw [processItem_not_secret c newEvent _ found hg rfl] at hre
        simp [handleEventCalls] at hre
      | secret secret =>
        by_cases htype : secret.Type_ = helmReleaseType
        · cases hinit : c.classifier.Init ⟨newEvent.eventType, secret⟩ with
          | some e =>
            rw [processItem_init_failed c newEvent secret found e hg htype hinit] at hre
            simp [handleEventCalls] at hre
          | none =>
            by_cases hact : c.classifier.GetAction ⟨newEvent.eventType, secret⟩ =
                ActionPostReplaceSuperseded
            · rw [processItem_superseded c newEvent secret found hg htype hinit hact] at hre
              simp [handleEventCalls] at hre
            · rw [processItem_classified c newEvent secret found hg htype hinit hact] at hre
              split_ifs at hre
              · simp [handleEventCalls] at hre
                subst hre
                exact ⟨hinit, hact⟩
              · simp [handleEventCalls] at hre
        · rw [processItem_not_helm c newEvent secret found hg htype] at hre
          simp [handleEventCalls] at hre

/-- C2 (superseded suppression): whatever the controller (cache contents,
classifier, start instant) and whatever the event, no release event
classified superseded-replace is ever handed to `HandleEvent`; and when the
release event of the cached Helm secret is classified superseded-replace,
`processItem` returns nil with no `HandleEvent` call at all, for every raw
type and every creation instant. -/
theorem superseded_suppression (c : Controller) (newEvent : Event) :
    (∀ re ∈ handleEventCalls (processItem c newEvent).2,
      c.classifier.GetAction re ≠ ActionPostReplaceSuperseded) ∧
    (∀ (secret : Secret) (found : Bool),
      c.GetByKey newEvent.key = (some (.secret secret), found, none) →
      secret.Type_ = helmReleaseType →
      c.classifier.Init ⟨newEvent.eventType, secret⟩ = none →
      c.classifier.GetAction ⟨newEvent.eventType, secret⟩ = ActionPostReplaceSuperseded →
      (processItem c newEvent).1 = .returned none ∧
        handleEventCalls (processItem c newEvent).2 = []) := by
  refine ⟨fun re hre => (dispatched_not_superseded c newEvent re hre).2, ?_⟩
  intro secret found hget htype hinit hact
  rw [processItem_superseded c newEvent secret found hget htype hinit hact]
  exact ⟨rfl, rfl⟩

/-- Scenario 2 of the specification: the update that retires the prior
revision of a release, created after the start instant, is not dispatched. -/
theorem superseded_suppression_witness :
    (processItem (sampleController (some (.secret (sampleSecret 110)), true, none)
        (constClassifier .PostReplaceSuperseded)) (sampleEvent "update")).1 =
        .returned none ∧
      handleEventCalls (processItem (sampleController
        (some (.secret (sampleSecret 110)), true, none)
        (constClassifier .PostReplaceSuperseded)) (sampleEvent "update")).2 = [] :=
  (superseded_suppression
    (sampleController (some (.secret (sampleSecret 110)), true, none)
      (constClassifier .PostReplaceSuperseded))
    (sampleEvent "update")).2 (sampleSecret 110) true rfl rfl rfl rfl

/-- C3 (update and delete always dispatch): for an "update" or "delete"
event whose cached object is a Helm release secret, whose release event
initialises and whose action is not superseded-replace, `processItem`
returns nil and calls `HandleEvent` exactly once, with that release event,
whatever the creation instant and the server start instant. -/
theorem update_delete_dispatch (c : Controller) (newEvent : Event) (secret : Secret)
    (found : Bool)
    (hget : c.GetByKey newEvent.key = (some (.secret secret), found, none))
    (htype : secret.Type_ = helmReleaseType)
    (hraw : newEvent.eventType = "update" ∨ newEvent.eventType = "delete")
    (hinit : c.classifier.Init ⟨newEvent.eventType, secret⟩ = none)
    (hact : c.classifier.GetAction ⟨newEvent.eventType, secret⟩ ≠
      ActionPostReplaceSuperseded) :
    (processItem c newEvent).1 = .returned none ∧
    handleEventCalls (processItem c newEvent).2 = [⟨newEvent.eventType, secret⟩] := by
  rw [processItem_classified c newEvent secret found hget htype hinit hact]
  refine ⟨rfl, ?_⟩
  rcases hraw with h | h
  · simp [h, handleEventCalls]
  · simp [h, handleEventCalls]

/-- An update and a delete of a release that existed before the start
instant are each dispatched once. -/
theorem update_delete_dispatch_witness :
    ((processItem (sampleController (some (.secret (sampleSecret 95)), true, none)
        (constClassifier .Upgrade)) (sampleEvent "update")).1 = .returned none ∧
      handleEventCalls (processItem (sampleController
        (some (.secret (sampleSecret 95)), true, none)
        (constClassifier .Upgrade)) (sampleEvent "update")).2 =
        [⟨(sampleEvent "update").eventType, sampleSecret 95⟩]) ∧
    ((processItem (sampleController (some (.secret (sampleSecret 95)), true, none)
        (constClassifier .Uninstall)) (sampleEvent "delete")).1 = .returned none ∧
      handleEventCalls (processItem (sampleController
        (some (.secret (sampleSecret 95)), true, none)
        (constClassifier .Uninstall)) (sampleEvent "delete")).2 =
        [⟨(sampleEvent "delete").eventType, sampleSecret 95⟩]) :=
  ⟨update_delete_dispatch
      (sampleController (some (.secret (sampleSecret 95)), true, none)
        (constClassifier .Upgrade))
      (sampleEvent "update") (sampleSecret 95) true rfl rfl (Or.inl rfl) rfl (by decide),
   update_delete_dispatch
      (sampleController (some (.secret (sampleSecret 95)), true, none)
        (constClassifier .Uninstall))
      (sampleEvent "delete") (sampleSecret 95) true rfl rfl (Or.inr rfl) rfl (by decide)⟩


/-! ## Filtering before classification -/

/-- The classifier is invoked exactly when the lookup succeeds with a
secret of the Helm release type. -/
theorem initCalls_ne_nil_iff (c : Controller) (newEvent : Event) :
    initCalls (processItem c newEvent).2 ≠ [] ↔
      ∃ (secret : Secret) (found : Bool),
        c.GetByKey newEvent.key = (some (.secret secret), found, none) ∧
          secret.Type_ = helmReleaseType := by
  rcases hg : c.GetByKey newEvent.key with ⟨object, found, err⟩
  cases err with
  | some e =>
    rw [processItem_lookup_failed c newEvent object found e hg]
    simp [initCalls]
  | none =>
    cases object with
    | none =>
      rw [processItem_absent c newEvent found hg]
      simp [initCalls]
    | some obj =>
      cases obj with
      | deletedFinalStateUnknown key =>
        rw [processItem_not_secret c newEvent _ found hg rfl]
        simp [initCalls]
      | other =>
        rw [processItem_not_secret c newEvent _ found hg rfl]
        simp [initCalls]
      | secret secret =>
        by_cases htype : secret.Type_ = helmReleaseType
        · have hex : ∃ (s : Secret) (f : Bool),
              (some (Object.secret secret), found, (none : Option Err)) =
                (some (Object.secret s), f, none) ∧ s.Type_ = helmReleaseType :=
            ⟨secret, found, rfl, htype⟩
          cases hinit : c.classifier.Init ⟨newEvent.eventType, secret⟩ with
          | some e =>
            rw [processItem_init_failed c newEvent secret found e hg htype hinit]
            simpa [initCalls] using hex
          | none =>
            by_cases hact : c.classifier.GetAction ⟨newEvent.eventType, secret⟩ =
                ActionPostReplaceSuperseded
            · rw [processItem_superseded c newEvent secret found hg htype hinit hact]
              simpa [initCalls] using hex
            · rw [processItem_classified c newEvent secret found hg htype hinit hact]
              split_ifs <;> simpa [initCalls] using hex
        · rw [processItem_not_helm c newEvent secret found hg htype]
          simp only [initCalls, ne_eq, not_true_eq_false, false_iff, not_exists, not_and]
          intro s f hs
          simp only [Prod.mk.injEq, Option.some.injEq, Object.secret.injEq] at hs
          rw [← hs.1]
          exact htype

/-- C7 (subtype filter): when the cached object is a secret whose type is
not "helm.sh/release.v1", `processItem` returns nil after the lookup alone:
the classifier is not invoked and `HandleEvent` is not called, whatever the
raw type and the secret type recorded on the queued event.  Conversely the
classifier is invoked only for a cached secret of that type. -/
theorem subtype_filter (c : Controller) (newEvent : Event) :
    (∀ (secret : Secret) (found : Bool),
      c.GetByKey newEvent.key = (some (.secret secret), found, none) →
      secret.Type_ ≠ "helm.sh/release.v1" →
      (processItem c newEvent).1 = .returned none ∧
        initCalls (processItem c newEvent).2 = [] ∧
        handleEventCalls (processItem c newEvent).2 = []) ∧
    (initCalls (processItem c newEvent).2 ≠ [] →
      ∃ (secret : Secret) (found : Bool),
        c.GetByKey newEvent.key = (some (.secret secret), found, none) ∧
          secret.Type_ = "helm.sh/release.v1") := by
  refine ⟨?_, (initCalls_ne_nil_iff c newEvent).mp⟩
  intro secret found hget htype
  rw [processItem_not_helm c newEvent secret found hget htype]
  exact ⟨rfl, rfl, rfl⟩

/-- An opaque secret is filtered out although the queued event records the
Helm release type. -/
theorem subtype_filter_witness :
    (processItem (sampleController (some (.secret opaqueSecret), true, none)
        (constClassifier .Install)) (sampleEvent "update")).1 = .returned none ∧
      initCalls (processItem (sampleController (some (.secret opaqueSecret), true, none)
        (constClassifier .Install)) (sampleEvent "update")).2 = [] ∧
      handleEventCalls (processItem (sampleController
        (some (.secret opaqueSecret), true, none)
        (constClassifier .Install)) (sampleEvent "update")).2 = [] :=
  (subtype_filter
    (sampleController (some (.secret opaqueSecret), true, none) (constClassifier .Install))
    (sampleEvent "update")).1 opaqueSecret true rfl (by decide)


/-! ## One iteration of the worker loop -/

theorem processNextItemWith_success
    (process : Event → Outcome (Option Err) × List ItemCall) (q q1 : Queue)
    (newEvent : Event) (cs : List ItemCall)
    (hget : q.Get = (.item newEvent, q1))
    (hproc : process newEvent = (.returned none, cs)) :
    processNextItemWith process q =
      (.returned true, (q1.Forget newEvent).Done newEvent,
        .Get :: cs.map .item ++ [.Forget newEvent, .Done newEvent]) := by
  simp [processNextItemWith, hget, hproc]

theorem processNextItemWith_retry
    (process : Event → Outcome (Option Err) × List ItemCall) (q q1 : Queue)
    (newEvent : Event) (cs : List ItemCall) (e : Err)
    (hget : q.Get = (.item newEvent, q1))
    (hproc : process newEvent = (.returned (some e), cs))
    (hnum : q1.NumRequeues newEvent < maxRetries) :
    processNextItemWith process q =
      (.returned true, (q1.AddRateLimited newEvent).Done newEvent,
        .Get :: cs.map .item ++
          [.NumRequeues newEvent, .AddRateLimited newEvent, .Done newEvent]) := by
  simp [processNextItemWith, hget, hproc, hnum]

theorem processNextItemWith_give_up
    (process : Event → Outcome (Option Err) × List ItemCall) (q q1 : Queue)
    (newEvent : Event) (cs : List ItemCall) (e : Err)
    (hget : q.Get = (.item newEvent, q1))
    (hproc : process newEvent = (.returned (some e), cs))
    (hnum : ¬ q1.NumRequeues newEvent < maxRetries) :
    processNextItemWith process q =
      (.returned true, (q1.Forget newEvent).Done newEvent,
        .Get :: cs.map .item ++
          [.NumRequeues newEvent, .Forget newEvent, .HandleError e, .Done newEvent]) := by
  simp [processNextItemWith, hget, hproc, hnum]

theorem processNextItemWith_exited
    (process : Event → Outcome (Option Err) × List ItemCall) (q q1 : Queue)
    (newEvent : Event) (cs : List ItemCall)
    (hget : q.Get = (.item newEvent, q1))
    (hproc : process newEvent = (.exited, cs)) :
    processNextItemWith process q = (.exited, q1, .Get :: cs.map .item) := by
  simp [processNextItemWith, hget, hproc]

theorem processNextItemWith_shutdown
    (process : Event → Outcome (Option Err) × List ItemCall) (q q1 : Queue)
    (hget : q.Get = (.shutdown, q1)) :
    processNextItemWith process q = (.returned false, q1, [.Get]) := by
  simp [processNextItemWith, hget]

theorem processNextItemWith_waits
    (process : Event → Outcome (Option Err) × List ItemCall) (q q1 : Queue)
    (hget : q.Get = (.waits, q1)) :
    processNextItemWith process q = (.blocked, q1, [.Get]) := by
  simp [processNextItemWith, hget]

theorem count_item_calls (cs : List ItemCall) (x : Call) (hx : ∀ c, x ≠ .item c) :
    List.count x (cs.map Call.item) = 0 := by
  rw [List.count_eq_zero]
  intro hmem
  obtain ⟨c, _, hc⟩ := List.mem_map.mp hmem
  exact hx c hc.symm

/-- C5 (worker-loop outcome exclusivity): in an iteration of
`processNextItem` that dequeues an item, whatever the processing routine
returns and whatever the retry counter is, the calls after those of the
processing routine are exactly one of `Forget, Done`,
`NumRequeues, AddRateLimited, Done` and
`NumRequeues, Forget, HandleError, Done` on that item: `Done` is counted
once and `Forget` and `AddRateLimited` together once, and the iteration
returns true.  On the shutdown indication the only call is the `Get`
itself and the iteration returns false. -/
theorem worker_loop_exclusivity
    (process : Event → Outcome (Option Err) × List ItemCall) (q q1 : Queue) :
    (∀ (newEvent : Event) (ret : Option Err) (cs : List ItemCall),
      q.Get = (.item newEvent, q1) →
      process newEvent = (.returned ret, cs) →
      (processNextItemWith process q).1 = .returned true ∧
      (∃ tail : List Call,
        (processNextItemWith process q).2.2 = .Get :: cs.map .item ++ tail ∧
        (tail = [.Forget newEvent, .Done newEvent] ∨
         tail = [.NumRequeues newEvent, .AddRateLimited newEvent, .Done newEvent] ∨
         ∃ e, tail = [.NumRequeues newEvent, .Forget newEvent, .HandleError e,
                      .Done newEvent])) ∧
      (∀ other : Event,
        List.count (Call.Done other) (processNextItemWith process q).2.2 =
          (if other = newEvent then 1 else 0) ∧
        List.count (Call.Forget other) (processNextItemWith process q).2.2 +
          List.count (Call.AddRateLimited other) (processNextItemWith process q).2.2 =
          (if other = newEvent then 1 else 0))) ∧
    (q.Get = (.shutdown, q1) →
      processNextItemWith process q = (.returned false, q1, [.Get])) := by
  refine ⟨?_, processNextItemWith_shutdown process q q1⟩
  intro newEvent ret cs hget hproc
  have hD : ∀ other, List.count (Call.Done other) (cs.map Call.item) = 0 :=
    fun other => count_item_calls cs _ (by intro c h; cases h)
  have hF : ∀ other, List.count (Call.Forget other) (cs.map Call.item) = 0 :=
    fun other => count_item_calls cs _ (by intro c h; cases h)
  have hA : ∀ other, List.count (Call.AddRateLimited other) (cs.map Call.item) = 0 :=
    fun other => count_item_calls cs _ (by intro c h; cases h)
  cases ret with
  | none =>
    rw [processNextItemWith_success process q q1 newEvent cs hget hproc]
    refine ⟨rfl, ⟨_, rfl, Or.inl rfl⟩, ?_⟩
    intro other
    by_cases ho : other = newEvent
    · subst ho
      simp [List.count_cons, List.count_append, hD, hF, hA]
    · have ho2 : ¬ newEvent = other := fun h => ho h.symm
      simp [List.count_cons, List.count_append, hD, hF, hA, ho, ho2]
  | some e =>
    by_cases hnum : q1.NumRequeues newEvent < maxRetries
    · rw [processNextItemWith_retry process q q1 newEvent cs e hget hproc hnum]
      refine ⟨rfl, ⟨_, rfl, Or.inr (Or.inl rfl)⟩, ?_⟩
      intro other
      by_cases ho : other = newEvent
      · subst ho
        simp [List.count_cons, List.count_append, hD, hF, hA]
      · have ho2 : ¬ newEvent = other := fun h => ho h.symm
        simp [List.count_cons, List.count_append, hD, hF, hA, ho, ho2]
    · rw [processNextItemWith_give_up process q q1 newEvent cs e hget hproc hnum]
      refine ⟨rfl, ⟨_, rfl, Or.inr (Or.inr ⟨e, rfl⟩)⟩, ?_⟩
      intro other
      by_cases ho : other = newEvent
      · subst ho
        simp [List.count_cons, List.count_append, hD, hF, hA]
      · have ho2 : ¬ newEvent = other := fun h => ho h.symm
        simp [List.count_cons, List.count_append, hD, hF, hA, ho, ho2]


/-- An update whose processing fails is re-enqueued, not forgotten, and
marked done; a shut down queue stops the loop. -/
theorem worker_loop_exclusivity_witness :
    ((processNextItemWith (failingProcess "timeout") (sampleQueue [sampleEvent "update"])).1 =
        .returned true ∧
      List.count (Call.Done (sampleEvent "update"))
        (processNextItemWith (failingProcess "timeout")
          (sampleQueue [sampleEvent "update"])).2.2 =
        (if sampleEvent "update" = sampleEvent "update" then 1 else 0) ∧
      List.count (Call.Forget (sampleEvent "update"))
        (processNextItemWith (failingProcess "timeout")
          (sampleQueue [sampleEvent "update"])).2.2 +
        List.count (Call.AddRateLimited (sampleEvent "update"))
          (processNextItemWith (failingProcess "timeout")
            (sampleQueue [sampleEvent "update"])).2.2 =
        (if sampleEvent "update" = sampleEvent "update" then 1 else 0)) ∧
    processNextItemWith (failingProcess "timeout") shutDownQueue =
      (.returned false, shutDownQueue, [.Get]) :=
  ⟨⟨((worker_loop_exclusivity (failingProcess "timeout") (sampleQueue [sampleEvent "update"])
        (sampleInFlight (sampleEvent "update"))).1
        (sampleEvent "update") (some "timeout") _ rfl rfl).1,
    (((worker_loop_exclusivity (failingProcess "timeout")
        (sampleQueue [sampleEvent "update"])
        (sampleInFlight (sampleEvent "update"))).1
        (sampleEvent "update") (some "timeout") _ rfl rfl).2.2 (sampleEvent "update"))⟩,
   (worker_loop_exclusivity (failingProcess "timeout") shutDownQueue shutDownQueue).2 rfl⟩


/-! ## Events that are dropped without retry -/

/-- C6 (vanished-key tolerance): when the lookup of the key of an event, of
any raw type, yields a nil object and no error, `processItem` returns nil
after the lookup alone (no classifier invocation, no `HandleEvent` call),
and the iteration of `processNextItem` that dequeued the event calls
`Forget` and `Done` on it and nothing else: no `AddRateLimited`, no
`HandleError`, the pending items are those left by `Get`, and the retry
counter of the event is zero. -/
theorem vanished_key_tolerance (c : Controller) (q q1 : Queue) (newEvent : Event)
    (found : Bool)
    (hlookup : c.GetByKey newEvent.key = (none, found, none))
    (hget : q.Get = (.item newEvent, q1)) :
    (processItem c newEvent).1 = .returned none ∧
    initCalls (processItem c newEvent).2 = [] ∧
    handleEventCalls (processItem c newEvent).2 = [] ∧
    processNextItem c q =
      (.returned true, (q1.Forget newEvent).Done newEvent,
        [.Get, .item (.GetByKey newEvent.key), .Forget newEvent, .Done newEvent]) ∧
    (∀ e, Call.AddRateLimited e ∉ (processNextItem c q).2.2) ∧
    (∀ err, Call.HandleError err ∉ (processNextItem c q).2.2) ∧
    (processNextItem c q).2.1.queue = q1.queue ∧
    (processNextItem c q).2.1.NumRequeues newEvent = 0 := by
  have hp := processItem_absent c newEvent found hlookup
  have hn : processNextItem c q =
      (.returned true, (q1.Forget newEvent).Done newEvent,
        [.Get, .item (.GetByKey newEvent.key), .Forget newEvent, .Done newEvent]) := by
    unfold processNextItem
    rw [processNextItemWith_success (processItem c) q q1 newEvent _ hget hp]
    rfl
  rw [hn, hp]
  refine ⟨rfl, rfl, rfl, rfl, ?_, ?_, rfl, ?_⟩
  · intro e; simp
  · intro err; simp
  · simp [Queue.NumRequeues, Queue.Done, Queue.Forget]

/-- Scenario 4 of the specification: the delete event of a release whose
secret has already left the cache. -/
theorem vanished_key_tolerance_witness :
    (processItem (sampleController (none, false, none) (constClassifier .Uninstall))
        (sampleEvent "delete")).1 = .returned none ∧
    initCalls (processItem (sampleController (none, false, none)
        (constClassifier .Uninstall)) (sampleEvent "delete")).2 = [] ∧
    handleEventCalls (processItem (sampleController (none, false, none)
        (constClassifier .Uninstall)) (sampleEvent "delete")).2 = [] ∧
    processNextItem (sampleController (none, false, none) (constClassifier .Uninstall))
        (sampleQueue [sampleEvent "delete"]) =
      (.returned true,
        ((sampleInFlight (sampleEvent "delete")).Forget (sampleEvent "delete")).Done
          (sampleEvent "delete"),
        [.Get, .item (.GetByKey (sampleEvent "delete").key), .Forget (sampleEvent "delete"),
          .Done (sampleEvent "delete")]) ∧
    (∀ e, Call.AddRateLimited e ∉
      (processNextItem (sampleController (none, false, none) (constClassifier .Uninstall))
        (sampleQueue [sampleEvent "delete"])).2.2) ∧
    (∀ err, Call.HandleError err ∉
      (processNextItem (sampleController (none, false, none) (constClassifier .Uninstall))
        (sampleQueue [sampleEvent "delete"])).2.2) ∧
    (processNextItem (sampleController (none, false, none) (constClassifier .Uninstall))
        (sampleQueue [sampleEvent "delete"])).2.1.queue =
      (sampleInFlight (sampleEvent "delete")).queue ∧
    (processNextItem (sampleController (none, false, none) (constClassifier .Uninstall))
        (sampleQueue [sampleEvent "delete"])).2.1.NumRequeues (sampleEvent "delete") = 0 :=
  vanished_key_tolerance
    (sampleController (none, false, none) (constClassifier .Uninstall))
    (sampleQueue [sampleEvent "delete"]) (sampleInFlight (sampleEvent "delete"))
    (sampleEvent "delete") false rfl rfl

/-- C8 (classifier failure is terminal): when the cached object is a Helm
release secret and `Init` of its release event fails, `processItem` returns
nil without calling `HandleEvent`, and the iteration of `processNextItem`
that dequeued the event calls `Forget` and `Done` on it and neither
`AddRateLimited` nor `HandleError`. -/
theorem classifier_failure_terminal (c : Controller) (q q1 : Queue) (newEvent : Event)
    (secret : Secret) (found : Bool) (e : Err)
    (hlookup : c.GetByKey newEvent.key = (some (.secret secret), found, none))
    (htype : secret.Type_ = helmReleaseType)
    (hinit : c.classifier.Init ⟨newEvent.eventType, secret⟩ = some e)
    (hget : q.Get = (.item newEvent, q1)) :
    (processItem c newEvent).1 = .returned none ∧
    handleEventCalls (processItem c newEvent).2 = [] ∧
    processNextItem c q =
      (.returned true, (q1.Forget newEvent).Done newEvent,
        [.Get, .item (.GetByKey newEvent.key), .item (.Init ⟨newEvent.eventType, secret⟩),
          .Forget newEvent, .Done newEvent]) ∧
    (∀ e, Call.AddRateLimited e ∉ (processNextItem c q).2.2) ∧
    (∀ err, Call.HandleError err ∉ (processNextItem c q).2.2) := by
  have hp := processItem_init_failed c newEvent secret found e hlookup htype hinit
  have hn : processNextItem c q =
      (.returned true, (q1.Forget newEvent).Done newEvent,
        [.Get, .item (.GetByKey newEvent.key), .item (.Init ⟨newEvent.eventType, secret⟩),
          .Forget newEvent, .Done newEvent]) := by
    unfold processNextItem
    rw [processNextItemWith_success (processItem c) q q1 newEvent _ hget hp]
    rfl
  rw [hn, hp]
  refine ⟨rfl, rfl, rfl, ?_, ?_⟩
  · intro e; simp
  · intro err; simp

/-- A release secret that cannot be decoded is dropped on its first
attempt. -/
theorem classifier_failure_terminal_witness :
    (processItem (sampleController (some (.secret (sampleSecret 110)), true, none)
        failingClassifier) (sampleEvent "create")).1 = .returned none ∧
    handleEventCalls (processItem (sampleController
        (some (.secret (sampleSecret 110)), true, none)
        failingClassifier) (sampleEvent "create")).2 = [] ∧
    processNextItem (sampleController (some (.secret (sampleSecret 110)), true, none)
        failingClassifier) (sampleQueue [sampleEvent "create"]) =
      (.returned true,
        ((sampleInFlight (sampleEvent "create")).Forget (sampleEvent "create")).Done
          (sampleEvent "create"),
        [.Get, .item (.GetByKey (sampleEvent "create").key),
          .item (.Init ⟨(sampleEvent "create").eventType, sampleSecret 110⟩),
          .Forget (sampleEvent "create"), .Done (sampleEvent "create")]) ∧
    (∀ e, Call.AddRateLimited e ∉
      (processNextItem (sampleController (some (.secret (sampleSecret 110)), true, none)
        failingClassifier) (sampleQueue [sampleEvent "create"])).2.2) ∧
    (∀ err, Call.HandleError err ∉
      (processNextItem (sampleController (some (.secret (sampleSecret 110)), true, none)
        failingClassifier) (sampleQueue [sampleEvent "create"])).2.2) :=
  classifier_failure_terminal
    (sampleController (some (.secret (sampleSecret 110)), true, none) failingClassifier)
    (sampleQueue [sampleEvent "create"]) (sampleInFlight (sampleEvent "create"))
    (sampleEvent "create") (sampleSecret 110) true "release could not be decoded"
    rfl rfl rfl rfl


/-! ## processItem never asks for a retry -/

theorem processItem_returns_nil (c : Controller) (newEvent : Event)
    (herr : (c.GetByKey newEvent.key).2.2 = none) :
    (processItem c newEvent).1 = .returned none := by
  rcases hg : c.GetByKey newEvent.key with ⟨object, found, err⟩
  rw [hg] at herr
  simp only at herr
  subst herr
  cases object with
  | none => rw [processItem_absent c newEvent found hg]
  | some obj =>
    cases obj with
    | deletedFinalStateUnknown key => rw [processItem_not_secret c newEvent _ found hg rfl]
    | other => rw [processItem_not_secret c newEvent _ found hg rfl]
    | secret secret =>
      by_cases htype : secret.Type_ = helmReleaseType
      · cases hinit : c.classifier.Init ⟨newEvent.eventType, secret⟩ with
        | some e => rw [processItem_init_failed c newEvent secret found e hg htype hinit]
        | none =>
          by_cases hact : c.classifier.GetAction ⟨newEvent.eventType, secret⟩ =
              ActionPostReplaceSuperseded
          · rw [processItem_superseded c newEvent secret found hg htype hinit hact]
          · rw [processItem_classified c newEvent secret found hg htype hinit hact]
      · rw [processItem_not_helm c newEvent secret found hg htype]

theorem processItem_exits (c : Controller) (newEvent : Event) (e : Err)
    (herr : (c.GetByKey newEvent.key).2.2 = some e) :
    processItem c newEvent = (.exited, [.GetByKey newEvent.key, .Fatalf newEvent.key e]) := by
  rcases hg : c.GetByKey newEvent.key with ⟨object, found, err⟩
  rw [hg] at herr
  simp only at herr
  subst herr
  exact processItem_lookup_failed c newEvent object found e hg

theorem processItem_outcome (c : Controller) (newEvent : Event) :
    (processItem c newEvent).1 = .returned none ∨ (processItem c newEvent).1 = .exited := by
  cases herr : (c.GetByKey newEvent.key).2.2 with
  | none => exact Or.inl (processItem_returns_nil c newEvent herr)
  | some e => rw [processItem_exits c newEvent e herr]; exact Or.inr rfl

theorem processNextItem_no_retry (c : Controller) (q : Queue) (x : Call)
    (hx : x ∈ (processNextItem c q).2.2) :
    (∀ e, x ≠ .AddRateLimited e) ∧ (∀ err, x ≠ .HandleError err) := by
  unfold processNextItem at hx
  rcases hg : q.Get with ⟨r, q1⟩
  cases r with
  | waits =>
    rw [processNextItemWith_waits _ q q1 hg] at hx
    simp only [List.mem_singleton] at hx
    subst hx
    constructor <;> intro _ h <;> cases h
  | shutdown =>
    rw [processNextItemWith_shutdown _ q q1 hg] at hx
    simp only [List.mem_singleton] at hx
    subst hx
    constructor <;> intro _ h <;> cases h
  | item newEvent =>
    rcases processItem_outcome c newEvent with h | h
    · have hp : processItem c newEvent = (.returned none, (processItem c newEvent).2) := by
        rw [← h]
      rw [processNextItemWith_success _ q q1 newEvent _ hg hp] at hx
      simp only [List.mem_cons, List.mem_append, List.mem_singleton, List.mem_map,
        List.cons_append, List.not_mem_nil, or_false] at hx
      rcases hx with rfl | ⟨ic, _, rfl⟩ | rfl | rfl <;>
        constructor <;> intro _ h <;> cases h
    · have hp : processItem c newEvent = (.exited, (processItem c newEvent).2) := by
        rw [← h]
      rw [processNextItemWith_exited _ q q1 newEvent _ hg hp] at hx
      simp only [List.mem_cons, List.mem_map] at hx
      rcases hx with rfl | ⟨ic, _, rfl⟩ <;>
        constructor <;> intro _ h <;> cases h

theorem runWorker_no_retry (c : Controller) (fuel : Nat) :
    ∀ (q : Queue) (x : Call), x ∈ (runWorker c fuel q).2.2 →
      (∀ e, x ≠ .AddRateLimited e) ∧ (∀ err, x ≠ .HandleError err) := by
  induction fuel with
  | zero =>
    intro q x hx
    simp [runWorker, runWorkerWith] at hx
  | succ n ih =>
    intro q x hx
    have hstep := processNextItem_no_retry c q x
    unfold runWorker at hx ih
    unfold processNextItem at hstep
    unfold runWorkerWith at hx
    rcases hs : processNextItemWith (processItem c) q with ⟨r, q1, cs⟩
    rw [hs] at hx hstep
    cases r with
    | exited => exact hstep hx
    | blocked => exact hstep hx
    | returned b =>
      cases b with
      | false => exact hstep hx
      | true =>
        simp only [List.mem_append] at hx
        rcases hx with hx | hx
        · exact hstep hx
        · exact ih q1 x hx


/-- C10 (`processItem` never reports a retryable failure): whenever the
cache lookup does not fail `processItem` returns nil; a failed lookup ends
in `log.Fatalf`, which terminates the process, so that no call of
`processItem` returns a non-nil error.  Consequently an iteration of
`processNextItem` that dequeues an item whose lookup does not fail calls
`Forget` and `Done` on it after the calls of `processItem` and returns
true, and no iteration, hence no run of the worker loop of any length,
calls `AddRateLimited` or `HandleError`. -/
theorem processItem_never_retryable (c : Controller) :
    (∀ newEvent, (c.GetByKey newEvent.key).2.2 = none →
      (processItem c newEvent).1 = .returned none) ∧
    (∀ newEvent err, (c.GetByKey newEvent.key).2.2 = some err →
      processItem c newEvent =
        (.exited, [.GetByKey newEvent.key, .Fatalf newEvent.key err])) ∧
    (∀ newEvent err, (processItem c newEvent).1 ≠ .returned (some err)) ∧
    (∀ q q1 newEvent, q.Get = (.item newEvent, q1) →
      (c.GetByKey newEvent.key).2.2 = none →
      processNextItem c q =
        (.returned true, (q1.Forget newEvent).Done newEvent,
          .Get :: (processItem c newEvent).2.map .item ++
            [.Forget newEvent, .Done newEvent])) ∧
    (∀ q, ∀ x ∈ (processNextItem c q).2.2,
      (∀ e, x ≠ .AddRateLimited e) ∧ (∀ err, x ≠ .HandleError err)) ∧
    (∀ fuel q, ∀ x ∈ (runWorker c fuel q).2.2,
      (∀ e, x ≠ .AddRateLimited e) ∧ (∀ err, x ≠ .HandleError err)) := by
  refine ⟨fun newEvent h => processItem_returns_nil c newEvent h,
    fun newEvent err h => processItem_exits c newEvent err h, ?_, ?_,
    fun q x hx => processNextItem_no_retry c q x hx,
    fun fuel q x hx => runWorker_no_retry c fuel q x hx⟩
  · intro newEvent err h
    rcases processItem_outcome c newEvent with h1 | h1 <;> rw [h1] at h <;> cases h
  · intro q q1 newEvent hget herr
    have h := processItem_returns_nil c newEvent herr
    have hp : processItem c newEvent = (.returned none, (processItem c newEvent).2) := by
      rw [← h]
    exact processNextItemWith_success (processItem c) q q1 newEvent _ hget hp

/-- A dispatched update returns nil and is forgotten; a failing lookup
ends in `Fatalf`. -/
theorem processItem_never_retryable_witness :
    (processItem (sampleController (some (.secret (sampleSecret 110)), true, none)
        (constClassifier .Upgrade)) (sampleEvent "update")).1 = .returned none ∧
    processItem (sampleController (none, false, some "index corrupted")
        (constClassifier .Upgrade)) (sampleEvent "update") =
      (.exited, [.GetByKey (sampleEvent "update").key,
        .Fatalf (sampleEvent "update").key "index corrupted"]) ∧
    processNextItem (sampleController (some (.secret (sampleSecret 110)), true, none)
        (constClassifier .Upgrade)) (sampleQueue [sampleEvent "update"]) =
      (.returned true,
        ((sampleInFlight (sampleEvent "update")).Forget (sampleEvent "update")).Done
          (sampleEvent "update"),
        .Get :: (processItem (sampleController
            (some (.secret (sampleSecret 110)), true, none)
            (constClassifier .Upgrade)) (sampleEvent "update")).2.map .item ++
          [.Forget (sampleEvent "update"), .Done (sampleEvent "update")]) :=
  ⟨(processItem_never_retryable
      (sampleController (some (.secret (sampleSecret 110)), true, none)
        (constClassifier .Upgrade))).1 (sampleEvent "update") rfl,
   (processItem_never_retryable
      (sampleController (none, false, some "index corrupted")
        (constClassifier .Upgrade))).2.1 (sampleEvent "update") "index corrupted" rfl,
   (processItem_never_retryable
      (sampleController (some (.secret (sampleSecret 110)), true, none)
        (constClassifier .Upgrade))).2.2.2.1 (sampleQueue [sampleEvent "update"])
      (sampleInFlight (sampleEvent "update")) (sampleEvent "update") rfl rfl⟩


/-! ## Bounded retry -/

theorem addRateLimitedCalls_append (xs ys : List Call) :
    addRateLimitedCalls (xs ++ ys) = addRateLimitedCalls xs ++ addRateLimitedCalls ys := by
  induction xs with
  | nil => rfl
  | cons x xs ih => cases x <;> simp [addRateLimitedCalls, ih]

theorem forgetCalls_append (xs ys : List Call) :
    forgetCalls (xs ++ ys) = forgetCalls xs ++ forgetCalls ys := by
  induction xs with
  | nil => rfl
  | cons x xs ih => cases x <;> simp [forgetCalls, ih]

theorem errorReports_append (xs ys : List Call) :
    errorReports (xs ++ ys) = errorReports xs ++ errorReports ys := by
  induction xs with
  | nil => rfl
  | cons x xs ih => cases x <;> simp [errorReports, ih]

theorem addRateLimitedCalls_item (cs : List ItemCall) :
    addRateLimitedCalls (cs.map Call.item) = [] := by
  induction cs with
  | nil => rfl
  | cons x xs ih => simp [addRateLimitedCalls, ih]

theorem forgetCalls_item (cs : List ItemCall) : forgetCalls (cs.map Call.item) = [] := by
  induction cs with
  | nil => rfl
  | cons x xs ih => simp [forgetCalls, ih]

theorem errorReports_item (cs : List ItemCall) : errorReports (cs.map Call.item) = [] := by
  induction cs with
  | nil => rfl
  | cons x xs ih => simp [errorReports, ih]

theorem Queue.Get_single (q : Queue) (e : Event) (hq : q.queue = [e]) :
    q.Get = (.item e, { q with queue := [], processing := e :: q.processing }) := by
  simp [Queue.Get, hq]

theorem step_retry (process : Event → Outcome (Option Err) × List ItemCall) (q : Queue)
    (e : Event) (err : Err) (cs : List ItemCall)
    (hq : q.queue = [e]) (hk : q.failures e < maxRetries)
    (hfail : process e = (.returned (some err), cs)) :
    ∃ q2, processNextItemWith process q =
        (.returned true, q2,
          .Get :: cs.map .item ++ [.NumRequeues e, .AddRateLimited e, .Done e]) ∧
      q2.queue = [e] ∧ q2.failures e = q.failures e + 1 := by
  refine ⟨_, processNextItemWith_retry process q _ e cs err (Queue.Get_single q e hq) hfail
    (by simpa [Queue.NumRequeues] using hk), ?_, ?_⟩
  · simp [Queue.Done, Queue.AddRateLimited, Queue.Add]
  · simp [Queue.Done, Queue.AddRateLimited, Queue.Add]

theorem step_give_up (process : Event → Outcome (Option Err) × List ItemCall) (q : Queue)
    (e : Event) (err : Err) (cs : List ItemCall)
    (hq : q.queue = [e]) (hk : ¬ q.failures e < maxRetries)
    (hfail : process e = (.returned (some err), cs)) :
    ∃ q2, processNextItemWith process q =
        (.returned true, q2,
          .Get :: cs.map .item ++
            [.NumRequeues e, .Forget e, .HandleError err, .Done e]) ∧
      q2.queue = [] ∧ q2.failures e = 0 := by
  refine ⟨_, processNextItemWith_give_up process q _ e cs err (Queue.Get_single q e hq) hfail
    (by simpa [Queue.NumRequeues] using hk), ?_, ?_⟩
  · simp [Queue.Done, Queue.Forget]
  · simp [Queue.Done, Queue.Forget]

/-- With nothing pending the worker makes no call but a `Get` and leaves
the queue as it is. -/
theorem runWorkerWith_empty (process : Event → Outcome (Option Err) × List ItemCall)
    (n : Nat) (q : Queue) (hq : q.queue = []) :
    (runWorkerWith process n q).2.1 = q ∧
      ((runWorkerWith process n q).2.2 = [] ∨ (runWorkerWith process n q).2.2 = [.Get]) := by
  cases n with
  | zero => simp [runWorkerWith]
  | succ n =>
    by_cases hs : q.shuttingDown
    · have hg : q.Get = (.shutdown, q) := by simp [Queue.Get, hq, hs]
      simp [runWorkerWith, processNextItemWith_shutdown process q q hg]
    · have hg : q.Get = (.waits, q) := by simp [Queue.Get, hq, hs]
      simp [runWorkerWith, processNextItemWith_waits process q q hg]


theorem runWorkerWith_succ_true (process : Event → Outcome (Option Err) × List ItemCall)
    (n : Nat) (q q1 : Queue) (cs : List Call)
    (hstep : processNextItemWith process q = (.returned true, q1, cs)) :
    runWorkerWith process (n + 1) q =
      ((runWorkerWith process n q1).1, (runWorkerWith process n q1).2.1,
        cs ++ (runWorkerWith process n q1).2.2) := by
  simp [runWorkerWith, hstep]

/-- The worker loop on a single pending item whose processing always
fails, started with `m` retries left. -/
theorem runWorkerWith_failing (process : Event → Outcome (Option Err) × List ItemCall)
    (e : Event) (err : Err) (cs : List ItemCall)
    (hfail : process e = (.returned (some err), cs)) :
    ∀ (m : Nat) (q : Queue), q.queue = [e] → q.failures e + m = maxRetries → ∀ n : Nat,
      addRateLimitedCalls (runWorkerWith process n q).2.2 = List.replicate (min n m) e ∧
      forgetCalls (runWorkerWith process n q).2.2 = (if m + 1 ≤ n then [e] else []) ∧
      errorReports (runWorkerWith process n q).2.2 = (if m + 1 ≤ n then [err] else []) ∧
      (m + 1 ≤ n → (runWorkerWith process n q).2.1.queue = [] ∧
        (runWorkerWith process n q).2.1.failures e = 0) := by
  intro m
  induction m with
  | zero =>
    intro q hq hk n
    cases n with
    | zero => simp [runWorkerWith, addRateLimitedCalls, forgetCalls, errorReports]
    | succ n =>
      have hk2 : ¬ q.failures e < maxRetries := by omega
      obtain ⟨q2, hstep, hq2, hf2⟩ := step_give_up process q e err cs hq hk2 hfail
      obtain ⟨hsame, hcalls⟩ := runWorkerWith_empty process n q2 hq2
      rw [runWorkerWith_succ_true process n q q2 _ hstep]
      simp only [hsame, hq2, hf2]
      rcases hcalls with h | h <;>
        simp [h, addRateLimitedCalls_append, forgetCalls_append, errorReports_append,
          addRateLimitedCalls_item, forgetCalls_item, errorReports_item,
          addRateLimitedCalls, forgetCalls, errorReports]
  | succ m ih =>
    intro q hq hk n
    cases n with
    | zero => simp [runWorkerWith, addRateLimitedCalls, forgetCalls, errorReports]
    | succ n =>
      have hk2 : q.failures e < maxRetries := by omega
      obtain ⟨q2, hstep, hq2, hf2⟩ := step_retry process q e err cs hq hk2 hfail
      obtain ⟨h1, h2, h3, h4⟩ := ih q2 hq2 (by omega) n
      rw [runWorkerWith_succ_true process n q q2 _ hstep]
      refine ⟨?_, ?_, ?_, ?_⟩
      · simp [h1, addRateLimitedCalls_append, addRateLimitedCalls_item, addRateLimitedCalls,
          Nat.succ_min_succ, List.replicate_succ]
      · simp [h2, forgetCalls_append, forgetCalls_item, forgetCalls]
      · simp [h3, errorReports_append, errorReports_item, errorReports]
      · intro hn
        exact h4 (by omega)

/-- C4 (retry bound): on a queue whose only pending item has retry counter
0 and whose processing fails on every attempt, any run of the worker loop
of `n` iterations calls `AddRateLimited` on the item exactly `min n 5`
times: once in each of the first `maxRetries = 5` iterations and never
again.  The sixth iteration, and only it, calls `Forget` on the item and
reports the error to `HandleError`, once; after it nothing is pending and
the retry counter is back at zero. -/
theorem retry_bound (process : Event → Outcome (Option Err) × List ItemCall)
    (q : Queue) (e : Event) (err : Err) (cs : List ItemCall)
    (hq : q.queue = [e]) (hzero : q.NumRequeues e = 0)
    (hfail : process e = (.returned (some err), cs)) (n : Nat) :
    addRateLimitedCalls (runWorkerWith process n q).2.2 = List.replicate (min n 5) e ∧
    forgetCalls (runWorkerWith process n q).2.2 = (if 6 ≤ n then [e] else []) ∧
    errorReports (runWorkerWith process n q).2.2 = (if 6 ≤ n then [err] else []) ∧
    (6 ≤ n → (runWorkerWith process n q).2.1.queue = [] ∧
      (runWorkerWith process n q).2.1.NumRequeues e = 0) := by
  have hk : q.failures e + 5 = maxRetries := by
    have : q.failures e = 0 := hzero
    simp [this, maxRetries]
  exact runWorkerWith_failing process e err cs hfail 5 q hq hk n

/-- Scenario 5 of the specification: the update of a release fails on
every attempt; in a run of 10 iterations. -/
theorem retry_bound_witness :
    addRateLimitedCalls (runWorkerWith (failingProcess "timeout") 10
        (sampleQueue [sampleEvent "update"])).2.2 =
      List.replicate (min 10 5) (sampleEvent "update") ∧
    forgetCalls (runWorkerWith (failingProcess "timeout") 10
        (sampleQueue [sampleEvent "update"])).2.2 =
      (if 6 ≤ 10 then [sampleEvent "update"] else []) ∧
    errorReports (runWorkerWith (failingProcess "timeout") 10
        (sampleQueue [sampleEvent "update"])).2.2 =
      (if 6 ≤ 10 then ["timeout"] else []) ∧
    (6 ≤ 10 → (runWorkerWith (failingProcess "timeout") 10
        (sampleQueue [sampleEvent "update"])).2.1.queue = [] ∧
      (runWorkerWith (failingProcess "timeout") 10
        (sampleQueue [sampleEvent "update"])).2.1.NumRequeues (sampleEvent "update") = 0) :=
  retry_bound (failingProcess "timeout") (sampleQueue [sampleEvent "update"])
    (sampleEvent "update") "timeout" _ rfl rfl rfl 10


/-! ## The informer callbacks -/

/-- On a `*api_v1.Secret` the key derivation succeeds and `AddFunc` passes
exactly one event to `Add`: the key, "create" and the type of the secret. -/
theorem AddFunc_secret (s : Secret) (r : Registration) :
    (MetaNamespaceKeyFunc (.secret s)).2 = none ∧
    AddFunc (.secret s) r =
      .completed
        { queue := r.queue.Add ⟨(MetaNamespaceKeyFunc (.secret s)).1, "create", s.Type_⟩,
          newEvent := ⟨(MetaNamespaceKeyFunc (.secret s)).1, "create", s.Type_⟩,
          err := none,
          added := r.added ++ [⟨(MetaNamespaceKeyFunc (.secret s)).1, "create", s.Type_⟩] } := by
  by_cases h : s.Namespace.length > 0 <;>
    simp [AddFunc, MetaNamespaceKeyFunc, Object.asSecret, h]

/-- On a `*api_v1.Secret` pair `UpdateFunc` passes exactly one event to
`Add`: the key and type of its first argument and "update". -/
theorem UpdateFunc_secret (s : Secret) (new : Object) (r : Registration) :
    (MetaNamespaceKeyFunc (.secret s)).2 = none ∧
    UpdateFunc (.secret s) new r =
      .completed
        { queue := r.queue.Add ⟨(MetaNamespaceKeyFunc (.secret s)).1, "update", s.Type_⟩,
          newEvent := ⟨(MetaNamespaceKeyFunc (.secret s)).1, "update", s.Type_⟩,
          err := none,
          added := r.added ++ [⟨(MetaNamespaceKeyFunc (.secret s)).1, "update", s.Type_⟩] } := by
  by_cases h : s.Namespace.length > 0 <;>
    simp [UpdateFunc, MetaNamespaceKeyFunc, Object.asSecret, h]

/-- On a `*api_v1.Secret` `DeleteFunc` passes exactly one event to `Add`:
the key, "delete" and the type of the secret. -/
theorem DeleteFunc_secret (s : Secret) (r : Registration) :
    (DeletionHandlingMetaNamespaceKeyFunc (.secret s)).2 = none ∧
    DeleteFunc (.secret s) r =
      .completed
        { queue := r.queue.Add
            ⟨(DeletionHandlingMetaNamespaceKeyFunc (.secret s)).1, "delete", s.Type_⟩,
          newEvent := ⟨(DeletionHandlingMetaNamespaceKeyFunc (.secret s)).1, "delete", s.Type_⟩,
          err := none,
          added := r.added ++
            [⟨(DeletionHandlingMetaNamespaceKeyFunc (.secret s)).1, "delete", s.Type_⟩] } := by
  by_cases h : s.Namespace.length > 0 <;>
    simp [DeleteFunc, DeletionHandlingMetaNamespaceKeyFunc, MetaNamespaceKeyFunc,
      Object.asSecret, h]

/-- The type assertion of each callback precedes its `err == nil` test: on
an object that is not a `*api_v1.Secret` every callback panics, whatever
the key derivation gave. -/
theorem callbacks_panic_on_non_secret (obj new : Object) (r : Registration)
    (h : obj.asSecret = none) :
    AddFunc obj r = .panicked ∧ UpdateFunc obj new r = .panicked ∧
      DeleteFunc obj r = .panicked := by
  refine ⟨?_, ?_, ?_⟩
  · simp [AddFunc, h]
  · simp [UpdateFunc, h]
  · simp [DeleteFunc, h]

/-- C9 (key-extraction failure is dropped at the source), at the input
where the code departs from it: for the tombstone of a missed deletion the
key derivation of the delete callback succeeds, yet the callback panics in
the type assertion and nothing is passed to `Add`. -/
theorem DeleteFunc_tombstone_panics :
    DeletionHandlingMetaNamespaceKeyFunc (.deletedFinalStateUnknown "default/rel-3") =
      ("default/rel-3", none) ∧
    DeleteFunc (.deletedFinalStateUnknown "default/rel-3") sampleRegistration = .panicked :=
  ⟨rfl, rfl⟩

end Kubewise
